import Mathlib

/-!
Verification development for `workload.py` (bbengfort/compile-workload).

The script runs a compiler workload: it validates an empty target directory,
clones a project from a fixed registry, stats the directory tree, runs the
project's build commands, stats again, appends one CSV row to the results
file (optionally preceded by a header row), removes the cloned tree, and
prints the result record.

The development has two parts:

* a tree model of `statdir` (the `os.walk` aggregation of bytes, file counts
  and immediate-subdirectory counts), and
* a state-and-exception embedding of the orchestration pipeline
  (`run_workload`, `clone`, `build`, `timeit`, `withcwd`, the project
  registry and the CSV writing), in which the behaviour of the external
  collaborators (the git client, the build tools, the filesystem walk) is
  supplied by an environment of observed outcomes.
-/

namespace Workload

/-! ### Directory trees and `statdir` -/

mutual
/-- A directory: its immediate regular files (name and size in bytes) and its
immediate subdirectories.  This is the filesystem shape that `os.walk`
traverses. -/
inductive FSTree : Type where
  | node : List (String × Nat) → DirList → FSTree
/-- A list of named immediate subdirectories. -/
inductive DirList : Type where
  | dnil : DirList
  | dcons : String → FSTree → DirList → DirList
end

/-- Number of immediate subdirectories, i.e. `len(dirs)` for one visited
directory of the walk. -/
def DirList.length : DirList → Nat
  | .dnil => 0
  | .dcons _ _ ds => ds.length + 1

/-- The immediate regular files of a directory (the `files` component that
`os.walk` yields for it). -/
def FSTree.files : FSTree → List (String × Nat)
  | .node fs _ => fs

/-- The immediate subdirectories of a directory (the `dirs` component that
`os.walk` yields for it). -/
def FSTree.subdirs : FSTree → DirList
  | .node _ ds => ds

mutual
/-- `os.walk(path)` top-down: the root directory first, then every
subdirectory recursively, in listing order. -/
def FSTree.walk : FSTree → List FSTree
  | .node fs ds => .node fs ds :: DirList.walkAll ds
/-- The concatenation of the walks of a list of subdirectories. -/
def DirList.walkAll : DirList → List FSTree
  | .dnil => []
  | .dcons _ d ds => d.walk ++ ds.walkAll
end

/-- `sum(getsize(join(root, name)) for name in files)` for one visited
directory. -/
def fileBytes (d : FSTree) : Nat := (d.files.map (fun f => f.2)).sum

/-- The loop body of `statdir`: for each directory yielded by `os.walk`, add
the immediate file sizes to `n_bytes`, `len(files)` to `n_files`, and
`len(dirs)` to `n_dirs`; returns `(n_bytes, n_files, n_dirs)`. -/
def statdirCore (path : FSTree) : Nat × Nat × Nat :=
  path.walk.foldl
    (fun acc d =>
      (acc.1 + fileBytes d, acc.2.1 + d.files.length, acc.2.2 + d.subdirs.length))
    (0, 0, 0)

/-- The `timeit` decorator applied to a pure function: returns the result
paired with the elapsed wall-clock time `t1 - t0` (the timestamps observed at
entry and at exit). -/
def timeitP {α β : Type} (f : α → β) (t0 t1 : Int) (x : α) : β × Int :=
  (f x, t1 - t0)

/-- `statdir` as decorated with `timeit`: the three aggregates together with
the elapsed duration of the walk. -/
def statdir (t0 t1 : Int) (path : FSTree) : (Nat × Nat × Nat) × Int :=
  timeitP statdirCore t0 t1 path

/-- Sum, over every directory visited by the walk, of the sizes of its
immediate regular files. -/
def walkBytesSum (t : FSTree) : Nat := (t.walk.map fileBytes).sum

/-- Sum, over every directory visited by the walk, of its immediate
regular-file count. -/
def walkFilesSum (t : FSTree) : Nat := (t.walk.map (fun d => d.files.length)).sum

/-- Sum, over every directory visited by the walk, of its immediate
subdirectory count. -/
def walkDirsSum (t : FSTree) : Nat := (t.walk.map (fun d => d.subdirs.length)).sum

/-- An empty directory. -/
def emptyDir : FSTree := .node [] .dnil

mutual
/-- Modelled from the claim: the number of distinct directories in the tree
strictly below the root (the root itself is not counted). -/
def countBelow : FSTree → Nat
  | .node _ ds => countBelowL ds
/-- Distinct-directory count of a subdirectory list: each listed directory
itself plus everything below it. -/
def countBelowL : DirList → Nat
  | .dnil => 0
  | .dcons _ d ds => 1 + countBelow d + countBelowL ds
end

/-- A small concrete directory tree used by witnesses: a root with one file
of 3 bytes and one subdirectory holding two files of 4 and 5 bytes. -/
def sampleTree : FSTree :=
  .node [("a.txt", 3)] (.dcons "sub" (.node [("b.txt", 4), ("c.txt", 5)] .dnil) .dnil)

end Workload

namespace Workload

/-! ### The orchestration pipeline

The pipeline is embedded in a state-and-exception monad
`M α = St → Except Err α × St`: Python state survives a raised exception, so
the state component is returned in both outcomes.  The behaviour of the
external collaborators — the git client, each build tool invocation, the two
directory walks, the output file — is supplied by an environment `Env` of
observed outcomes (whether the operation raised, the child's exit status, its
wall-clock duration, the walk's aggregates).  `run_workload` itself only
sequences those operations, which is exactly what the claims are about. -/

/-- A CSV cell: the string fields (`test name`, `test path`) or a numeric
measurement. -/
inductive Val : Type where
  | str : String → Val
  | num : Nat → Val
  deriving DecidableEq

/-- The exceptions `run_workload` can raise.  `invalidTarget` embeds the
`TypeError` for a missing or non-directory target, `nonEmptyTarget` and
`unknownProject` the two `ValueError` raises, `procError` a raise from
`subprocess.call` (e.g. missing executable), `statError` a raise from the
directory walk, and `ioError` a raise while opening or writing the output
file. -/
inductive Err : Type where
  | invalidTarget : String → Err
  | nonEmptyTarget : String → Err
  | unknownProject : String → Err
  | procError : Err
  | statError : Err
  | ioError : Err
  deriving DecidableEq

/-- Observable actions of the run: a child process invocation (argument
vector, working directory it ran in, its exit status), a working-directory
change, a directory walk, and the recursive removal of a tree. -/
inductive Ev : Type where
  | procCall : List String → String → Int → Ev
  | chdirEv : String → Ev
  | statWalk : String → Ev
  | rmtreeEv : String → Ev
  deriving DecidableEq

/-- The world state threaded through the run: the wall clock, the process's
current working directory, the target directory (existence, directory-ness,
its entries other than the cloned project, and whether the cloned
`target/project` tree is present), the rows of the output CSV file, what has
been printed to stdout, and the trace of observable actions. -/
structure St : Type where
  now : Nat
  cwd : String
  targetExists : Bool
  targetIsDir : Bool
  targetListing : List String
  clonePresent : Bool
  fileRows : List (List Val)
  stdout : List (List (String × Val))
  events : List Ev
  deriving DecidableEq

/-- Observed outcome of one `subprocess.call`: whether the call itself
raised, the child's exit status, and the elapsed wall-clock time. -/
structure ProcB : Type where
  raises : Bool
  exitCode : Int
  dur : Nat

/-- Observed outcome of one directory walk: whether it raised, the three
aggregates, and the elapsed wall-clock time. -/
structure WalkB : Type where
  raises : Bool
  bytes : Nat
  files : Nat
  dirs : Nat
  dur : Nat

/-- The whole external world of one invocation: the clone call, the two
walks, the build step calls (indexed by step number), and whether opening or
writing the output file raises. -/
structure Env : Type where
  cloneB : ProcB
  stat1B : WalkB
  buildB : Nat → ProcB
  stat2B : WalkB
  openRaises : Bool
  writeRaises : Bool

/-- State-and-exception monad: the state is returned in both outcomes, since
a raised Python exception does not roll back any side effect. -/
def M (α : Type) : Type := St → Except Err α × St

/-- Return a pure value. -/
def M.pure {α : Type} (a : α) : M α := fun s => (Except.ok a, s)

/-- Sequence two computations; an exception short-circuits. -/
def M.bind {α β : Type} (m : M α) (f : α → M β) : M β := fun s =>
  match m s with
  | (Except.ok a, s1) => f a s1
  | (Except.error e, s1) => (Except.error e, s1)

/-- Raise an exception. -/
def M.raise {α : Type} (e : Err) : M α := fun s => (Except.error e, s)

/-- `time.time()`. -/
def getTime : M Nat := fun s => (Except.ok s.now, s)

/-- `os.path.exists(path)` for the target path. -/
def os_path_exists : M Bool := fun s => (Except.ok s.targetExists, s)

/-- `os.path.isdir(path)` for the target path. -/
def os_path_isdir : M Bool := fun s => (Except.ok s.targetIsDir, s)

/-- `os.listdir(path)` for the target path (the cloned tree is not present
when this is called). -/
def os_listdir : M (List String) := fun s => (Except.ok s.targetListing, s)

/-- `subprocess.call(cmd)`: waits for the child, advances the clock by the
observed duration, records the invocation (with the current working directory
and the child's exit status) and returns the exit status; if launching the
child raised, the exception propagates and no invocation is recorded. -/
def subprocess_call (b : ProcB) (cmd : List String) : M Int := fun s =>
  if b.raises then (Except.error Err.procError, { s with now := s.now + b.dur })
  else (Except.ok b.exitCode,
        { s with now := s.now + b.dur,
                 events := s.events ++ [Ev.procCall cmd s.cwd b.exitCode] })

/-- `os.chdir(d)`. -/
def os_chdir (d : String) : M Unit := fun s =>
  (Except.ok (), { s with cwd := d, events := s.events ++ [Ev.chdirEv d] })

/-- The directory walk of `statdir` at the orchestration level: its
aggregates are an observation of the filesystem, supplied by `WalkB` (the
value-level behaviour of the walk is proved on `FSTree` above). -/
def os_walk_stat (b : WalkB) (path : String) : M (Nat × Nat × Nat) := fun s =>
  if b.raises then (Except.error Err.statError, { s with now := s.now + b.dur })
  else (Except.ok (b.bytes, b.files, b.dirs),
        { s with now := s.now + b.dur,
                 events := s.events ++ [Ev.statWalk path] })

/-- The `timeit` decorator: sample the clock, run the computation, sample the
clock again, and return the result paired with the elapsed time. -/
def timeit {α : Type} (f : M α) : M (α × Nat) :=
  M.bind getTime fun started =>
  M.bind f fun result =>
  M.bind getTime fun stopped =>
  M.pure (result, stopped - started)

/-- The `withcwd` decorator: save `os.getcwd()`, run the computation, and
restore the saved working directory afterwards whether the computation
returned or raised (`try`/`finally`). -/
def withcwd {α : Type} (f : M α) : M α := fun s =>
  let cwd := s.cwd
  let r := f s
  (r.1, { r.2 with cwd := cwd })

/-- The directory-creation side effect of a completed `git clone` child:
`target/project` now exists.  (The child's effect on the filesystem is
external behaviour; the model attaches it to the completed call.) -/
def git_clone_effect : M Unit := fun s =>
  (Except.ok (), { s with clonePresent := true })

/-- `clone(repo, path)`: `timeit`-wrapped `call(["git", "clone", repo,
path])`. -/
def clone (b : ProcB) (repo : String) (path : String) : M (Unit × Nat) :=
  timeit (M.bind (subprocess_call b ["git", "clone", repo, path]) fun _ =>
    git_clone_effect)

/-- `statdir(path)` as used by the orchestrator: the `timeit`-wrapped walk. -/
def statdirRun (b : WalkB) (path : String) : M ((Nat × Nat × Nat) × Nat) :=
  timeit (os_walk_stat b path)

/-- The loop `for cmd in cmds: call(cmd)`, with the observed behaviour of the
`i`-th step supplied by `bs i`. -/
def runCmds (bs : Nat → ProcB) : List (List String) → Nat → M Unit
  | [], _ => M.pure ()
  | c :: cs, i => M.bind (subprocess_call (bs i) c) fun _ => runCmds bs cs (i + 1)

/-- `build(cmds, path)`: `timeit`- and `withcwd`-wrapped: change into the
cloned project directory, then run the build commands in order. -/
def build (bs : Nat → ProcB) (cmds : List (List String)) (path : String) :
    M (Unit × Nat) :=
  timeit (withcwd (M.bind (os_chdir path) fun _ => runCmds bs cmds 0))

/-- One entry of the project registry: the repository address and the ordered
build command list. -/
structure ProjectDef : Type where
  repo : String
  cmds : List (List String)

/-- The `PROJECTS` registry, verbatim from the source. -/
def PROJECTS : List (String × ProjectDef) :=
  [("redis",
    { repo := "git@github.com:antirez/redis.git",
      cmds := [["make"]] }),
   ("postgres",
    { repo := "git@github.com:postgres/postgres.git",
      cmds := [["./configure"], ["make"]] }),
   ("nginx",
    { repo := "git@github.com:nginx/nginx.git",
      cmds := [["./auto/configure"], ["make"]] }),
   ("apache",
    { repo := "git@github.com:apache/httpd.git",
      cmds := [["git", "clone", "git@github.com:apache/apr.git", "srclib/apr"],
               ["./buildconf"],
               ["./configure", "--with-included-apr"],
               ["make"]] }),
   ("ruby",
    { repo := "git@github.com:ruby/ruby.git",
      cmds := [["autoconf"], ["./configure"], ["make"]] }),
   ("python",
    { repo := "git@github.com:python/cpython.git",
      cmds := [["./configure"], ["make"]] })]

/-- Results key `TEST_NAME`. -/
def TEST_NAME : String := "test name"

/-- Results key `TEST_PATH`. -/
def TEST_PATH : String := "test path"

/-- Results key `CLONE_TIME`. -/
def CLONE_TIME : String := "clone time"

/-- Results key `CLONE_STAT`. -/
def CLONE_STAT : String := "clone stat"

/-- Results key `CLONE_BYTES`. -/
def CLONE_BYTES : String := "clone bytes"

/-- Results key `CLONE_FILES`. -/
def CLONE_FILES : String := "clone files"

/-- Results key `CLONE_DIRS`. -/
def CLONE_DIRS : String := "clone dirs"

/-- Results key `BUILD_TIME`. -/
def BUILD_TIME : String := "build time"

/-- Results key `BUILD_STAT`. -/
def BUILD_STAT : String := "build stat"

/-- Results key `BUILD_BYTES`. -/
def BUILD_BYTES : String := "build bytes"

/-- Results key `BUILD_FILES`. -/
def BUILD_FILES : String := "build files"

/-- Results key `BUILD_DIRS`. -/
def BUILD_DIRS : String := "build dirs"

/-- `TEST_RESULTS` key list. -/
def TEST_RESULTS : List String := [TEST_NAME, TEST_PATH, CLONE_TIME, BUILD_TIME]

/-- `CLONE_RESULTS` key list. -/
def CLONE_RESULTS : List String := [CLONE_STAT, CLONE_BYTES, CLONE_FILES, CLONE_DIRS]

/-- `BUILD_RESULTS` key list. -/
def BUILD_RESULTS : List String := [BUILD_STAT, BUILD_BYTES, BUILD_FILES, BUILD_DIRS]

/-- `os.path.join` as used here (a relative name appended to a directory). -/
def join (a b : String) : String := a ++ "/" ++ b

/-- `open(output, 'a')`: opening the results file for append; creates the
file when missing and changes no content. -/
def open_append (raises : Bool) : M Unit := fun s =>
  if raises then (Except.error Err.ioError, s) else (Except.ok (), s)

/-- `csv.DictWriter.writeheader()`: append one row holding the field names. -/
def writeheader (raises : Bool) (fields : List String) : M Unit := fun s =>
  if raises then (Except.error Err.ioError, s)
  else (Except.ok (), { s with fileRows := s.fileRows ++ [fields.map Val.str] })

/-- The row `csv.DictWriter.writerow(results)` emits: the value of each field
name, in `fieldnames` order, looked up in the results record. -/
def buildRow (fields : List String) (results : List (String × Val)) : List Val :=
  fields.map (fun k => (results.lookup k).getD (Val.str ""))

/-- `csv.DictWriter.writerow(results)`: append one data row in `fieldnames`
order. -/
def writerow (raises : Bool) (fields : List String)
    (results : List (String × Val)) : M Unit := fun s =>
  if raises then (Except.error Err.ioError, s)
  else (Except.ok (), { s with fileRows := s.fileRows ++ [buildRow fields results] })

/-- `shutil.rmtree(join(path, project))`: the cloned tree is removed. -/
def shutil_rmtree (p : String) : M Unit := fun s =>
  (Except.ok (), { s with clonePresent := false,
                          events := s.events ++ [Ev.rmtreeEv p] })

/-- `print(json.dumps(results, indent=2))`: the result record is written to
stdout. -/
def print_results (results : List (String × Val)) : M Unit := fun s =>
  (Except.ok (), { s with stdout := s.stdout ++ [results] })

/-- `run_workload(path, project, output, header)`, line for line: validate
the target, resolve the project, clone, stat, build, stat, append the CSV row
(after the header row when requested), remove the cloned tree, and print the
results. -/
def run_workload (env : Env) (path : String) (project : String)
    (output : String) (header : Bool) : M Unit :=
  M.bind os_path_exists fun pathExists =>
  M.bind os_path_isdir fun pathIsDir =>
  if !pathExists || !pathIsDir then M.raise (Err.invalidTarget path)
  else
  M.bind os_listdir fun listing =>
  if listing.length > 0 then M.raise (Err.nonEmptyTarget path)
  else
  match PROJECTS.lookup project with
  | none => M.raise (Err.unknownProject project)
  | some commands =>
    M.bind (clone env.cloneB commands.repo (join path project)) fun cloneRes =>
    let results1 : List (String × Val) :=
      [(TEST_NAME, Val.str project), (TEST_PATH, Val.str path)]
        ++ [(CLONE_TIME, Val.num cloneRes.2)]
    M.bind (statdirRun env.stat1B path) fun stat1 =>
    let results2 := results1 ++
      List.zip CLONE_RESULTS
        [Val.num stat1.2, Val.num stat1.1.1, Val.num stat1.1.2.1, Val.num stat1.1.2.2]
    M.bind (build env.buildB commands.cmds (join path project)) fun buildRes =>
    let results3 := results2 ++ [(BUILD_TIME, Val.num buildRes.2)]
    M.bind (statdirRun env.stat2B path) fun stat2 =>
    let results4 := results3 ++
      List.zip BUILD_RESULTS
        [Val.num stat2.2, Val.num stat2.1.1, Val.num stat2.1.2.1, Val.num stat2.1.2.2]
    M.bind (open_append env.openRaises) fun _ =>
    let fields := TEST_RESULTS ++ CLONE_RESULTS ++ BUILD_RESULTS
    M.bind (if header then writeheader env.writeRaises fields else M.pure ()) fun _ =>
    M.bind (writerow env.writeRaises fields results4) fun _ =>
    M.bind (shutil_rmtree (join path project)) fun _ =>
    print_results results4

/-! ### Derived descriptions of a successful run -/

/-- Total duration of the build-step sequence (the time `timeit` observes
across the whole loop). -/
def stepsDur (bs : Nat → ProcB) : List (List String) → Nat → Nat
  | [], _ => 0
  | _ :: cs, i => (bs i).dur + stepsDur bs cs (i + 1)

/-- The process invocations of the build-step loop: one per step, in order,
all from the same working directory. -/
def stepEvents (bs : Nat → ProcB) :
    List (List String) → Nat → String → List Ev
  | [], _, _ => []
  | c :: cs, i, cwd => Ev.procCall c cwd (bs i).exitCode :: stepEvents bs cs (i + 1) cwd

/-- The results record a successful run assembles, in insertion order. -/
def expectedResults (env : Env) (path : String) (project : String)
    (cmds : List (List String)) : List (String × Val) :=
  [(TEST_NAME, Val.str project), (TEST_PATH, Val.str path),
   (CLONE_TIME, Val.num env.cloneB.dur),
   (CLONE_STAT, Val.num env.stat1B.dur), (CLONE_BYTES, Val.num env.stat1B.bytes),
   (CLONE_FILES, Val.num env.stat1B.files), (CLONE_DIRS, Val.num env.stat1B.dirs),
   (BUILD_TIME, Val.num (stepsDur env.buildB cmds 0)),
   (BUILD_STAT, Val.num env.stat2B.dur), (BUILD_BYTES, Val.num env.stat2B.bytes),
   (BUILD_FILES, Val.num env.stat2B.files), (BUILD_DIRS, Val.num env.stat2B.dirs)]

/-- The CSV data row a successful run appends, in the fixed column order. -/
def expectedRow (env : Env) (path : String) (project : String)
    (cmds : List (List String)) : List Val :=
  [Val.str project, Val.str path,
   Val.num env.cloneB.dur, Val.num (stepsDur env.buildB cmds 0),
   Val.num env.stat1B.dur, Val.num env.stat1B.bytes,
   Val.num env.stat1B.files, Val.num env.stat1B.dirs,
   Val.num env.stat2B.dur, Val.num env.stat2B.bytes,
   Val.num env.stat2B.files, Val.num env.stat2B.dirs]

/-- The full event trace of a successful run. -/
def expectedEvents (env : Env) (repo : String) (path : String)
    (project : String) (cwd0 : String) (cmds : List (List String)) : List Ev :=
  [Ev.procCall ["git", "clone", repo, join path project] cwd0 env.cloneB.exitCode,
   Ev.statWalk path, Ev.chdirEv (join path project)]
    ++ stepEvents env.buildB cmds 0 (join path project)
    ++ [Ev.statWalk path, Ev.rmtreeEv (join path project)]

/-- All measurement stages (the clone call, both walks, every build-step
call) complete without raising. -/
def measOk (env : Env) (cmds : List (List String)) : Prop :=
  env.cloneB.raises = false ∧ env.stat1B.raises = false ∧
  env.stat2B.raises = false ∧
  ∀ i, i < cmds.length → (env.buildB i).raises = false

/-- Some measurement stage raises, identified by the first raising
operation in pipeline order. -/
def measFails (env : Env) (cmds : List (List String)) : Prop :=
  env.cloneB.raises = true
  ∨ (env.cloneB.raises = false ∧ env.stat1B.raises = true)
  ∨ (env.cloneB.raises = false ∧ env.stat1B.raises = false ∧
      ∃ j, j < cmds.length ∧ (env.buildB j).raises = true ∧
        ∀ i, i < j → (env.buildB i).raises = false)
  ∨ (env.cloneB.raises = false ∧ env.stat1B.raises = false ∧
      (∀ i, i < cmds.length → (env.buildB i).raises = false) ∧
      env.stat2B.raises = true)

/-- Whether a trace contains a tree removal. -/
def hasRmtree (evs : List Ev) : Bool :=
  evs.any (fun e => match e with | Ev.rmtreeEv _ => true | _ => false)

/-- A concrete world at the start of a run: clock at zero, working directory
`/home/user`, an existing, empty target directory, no cloned tree, and an
empty (fresh) results file. -/
def initSt : St :=
  { now := 0, cwd := "/home/user", targetExists := true, targetIsDir := true,
    targetListing := [], clonePresent := false, fileRows := [], stdout := [],
    events := [] }

/-- A concrete environment in which every stage completes and every child
exits with status 1 (a failing build), used by witnesses. -/
def sampleEnv : Env :=
  { cloneB := { raises := false, exitCode := 1, dur := 2 },
    stat1B := { raises := false, bytes := 10, files := 3, dirs := 2, dur := 1 },
    buildB := fun _ => { raises := false, exitCode := 1, dur := 4 },
    stat2B := { raises := false, bytes := 20, files := 5, dirs := 3, dur := 2 },
    openRaises := false, writeRaises := false }

/-- `sampleEnv`, except that the post-build directory walk raises. -/
def sampleEnvStatFail : Env :=
  { sampleEnv with
      stat2B := { raises := true, bytes := 0, files := 0, dirs := 0, dur := 2 } }

/-- `sampleEnv`, except that opening the output file raises. -/
def sampleEnvOpenFail : Env :=
  { sampleEnv with openRaises := true }

/-- The registry entry for `redis`, used by witnesses. -/
def redisDef : ProjectDef :=
  { repo := "git@github.com:antirez/redis.git", cmds := [["make"]] }

/-! ### Lemmas about the walk aggregates -/

theorem foldl_stat_triple (l : List FSTree) (a b c : Nat) :
    l.foldl
      (fun acc d =>
        (acc.1 + fileBytes d, acc.2.1 + d.files.length, acc.2.2 + d.subdirs.length))
      (a, b, c)
      = (a + (l.map fileBytes).sum,
         b + (l.map (fun d => d.files.length)).sum,
         c + (l.map (fun d => d.subdirs.length)).sum) := by
  induction l generalizing a b c with
  | nil => simp
  | cons d l ih => simp [ih, Nat.add_assoc]

theorem statdirCore_eq (t : FSTree) :
    statdirCore t = (walkBytesSum t, walkFilesSum t, walkDirsSum t) := by
  simpa [statdirCore, walkBytesSum, walkFilesSum, walkDirsSum] using
    foldl_stat_triple t.walk 0 0 0

mutual
theorem walkDirsSum_eq : (t : FSTree) → walkDirsSum t = countBelow t
  | .node fs ds => by
    have h := walkAllDirs_eq ds
    simp only [walkDirsSum, FSTree.walk, List.map_cons, List.sum_cons,
      FSTree.subdirs, countBelow] at *
    omega
theorem walkAllDirs_eq :
    (ds : DirList) →
      ((DirList.walkAll ds).map (fun d => d.subdirs.length)).sum + ds.length
        = countBelowL ds
  | .dnil => by simp [DirList.walkAll, DirList.length, countBelowL]
  | .dcons nm d ds => by
    have h1 := walkDirsSum_eq d
    have h2 := walkAllDirs_eq ds
    simp only [DirList.walkAll, DirList.length, countBelowL, walkDirsSum,
      List.map_append, List.sum_append] at *
    omega
end

/-! ### Lemmas about the pipeline -/

theorem buildRow_eval (v1 v2 v3 v4 v5 v6 v7 v8 v9 v10 v11 v12 : Val) :
    buildRow (TEST_RESULTS ++ CLONE_RESULTS ++ BUILD_RESULTS)
      [(TEST_NAME, v1), (TEST_PATH, v2), (CLONE_TIME, v3),
       (CLONE_STAT, v4), (CLONE_BYTES, v5), (CLONE_FILES, v6), (CLONE_DIRS, v7),
       (BUILD_TIME, v8),
       (BUILD_STAT, v9), (BUILD_BYTES, v10), (BUILD_FILES, v11), (BUILD_DIRS, v12)]
      = [v1, v2, v3, v8, v4, v5, v6, v7, v9, v10, v11, v12] := rfl

theorem withcwd_cwd {α : Type} (f : M α) (s : St) :
    ((withcwd f) s).2.cwd = s.cwd := by
  simp [withcwd]

theorem hasRmtree_append (l1 l2 : List Ev) :
    hasRmtree (l1 ++ l2) = (hasRmtree l1 || hasRmtree l2) := by
  simp [hasRmtree, List.any_append]

theorem hasRmtree_stepEvents (bs : Nat → ProcB) (cmds : List (List String))
    (i : Nat) (cwd : String) : hasRmtree (stepEvents bs cmds i cwd) = false := by
  induction cmds generalizing i with
  | nil => rfl
  | cons c cs ih => simp [stepEvents, hasRmtree] at *; exact ih _

theorem hasRmtree_nil : hasRmtree [] = false := rfl

theorem hasRmtree_cons_proc (cmd : List String) (cwd : String) (ec : Int)
    (es : List Ev) : hasRmtree (Ev.procCall cmd cwd ec :: es) = hasRmtree es := by
  simp [hasRmtree]

theorem hasRmtree_cons_chdir (d : String) (es : List Ev) :
    hasRmtree (Ev.chdirEv d :: es) = hasRmtree es := by
  simp [hasRmtree]

theorem hasRmtree_cons_stat (p : String) (es : List Ev) :
    hasRmtree (Ev.statWalk p :: es) = hasRmtree es := by
  simp [hasRmtree]

theorem runCmds_ok (bs : Nat → ProcB) (cmds : List (List String)) (i0 : Nat)
    (s : St) (h : ∀ i, i < cmds.length → (bs (i0 + i)).raises = false) :
    runCmds bs cmds i0 s =
      (Except.ok (),
       { s with now := s.now + stepsDur bs cmds i0,
                events := s.events ++ stepEvents bs cmds i0 s.cwd }) := by
  induction cmds generalizing i0 s with
  | nil => simp [runCmds, stepsDur, stepEvents, M.pure]
  | cons c cs ih =>
    have hc : (bs i0).raises = false := by
      have := h 0 (by simp)
      simpa using this
    have hrest : ∀ i, i < cs.length → (bs (i0 + 1 + i)).raises = false := by
      intro i hi
      have e : i0 + 1 + i = i0 + (i + 1) := by omega
      rw [e]
      exact h (i + 1) (by simpa using Nat.succ_lt_succ hi)
    simp only [runCmds, M.bind, subprocess_call, hc, Bool.false_eq_true,
      if_false, ih (i0 + 1) _ hrest, stepsDur, stepEvents]
    simp [Nat.add_assoc, List.append_assoc]

theorem run_workload_ok (env : Env) (path project output : String)
    (header : Bool) (s0 : St) (pd : ProjectDef)
    (hex : s0.targetExists = true) (hdir : s0.targetIsDir = true)
    (hlist : s0.targetListing = [])
    (hproj : PROJECTS.lookup project = some pd)
    (hmeas : measOk env pd.cmds)
    (hopen : env.openRaises = false) (hwrite : env.writeRaises = false) :
    run_workload env path project output header s0 =
      (Except.ok (),
       { s0 with
         now := s0.now + env.cloneB.dur + env.stat1B.dur
                  + stepsDur env.buildB pd.cmds 0 + env.stat2B.dur,
         clonePresent := false,
         fileRows := s0.fileRows
           ++ (if header then
                [(TEST_RESULTS ++ CLONE_RESULTS ++ BUILD_RESULTS).map Val.str]
               else [])
           ++ [expectedRow env path project pd.cmds],
         stdout := s0.stdout ++ [expectedResults env path project pd.cmds],
         events := s0.events
           ++ expectedEvents env pd.repo path project s0.cwd pd.cmds }) := by
  obtain ⟨cB, s1B, bB, s2B, oR, wR⟩ := env
  obtain ⟨repo, cmds⟩ := pd
  obtain ⟨hc, h1, h2, hb⟩ := hmeas
  obtain ⟨now0, cwd0, tex, tdir, tlist, cp, rows0, out0, evs0⟩ := s0
  simp only at hex hdir hlist hopen hwrite hc h1 h2 hb hproj
  subst hex hdir hlist hopen hwrite
  obtain ⟨cbr, cbe, cbd⟩ := cB
  obtain ⟨s1r, s1by, s1f, s1d, s1du⟩ := s1B
  obtain ⟨s2r, s2by, s2f, s2d, s2du⟩ := s2B
  simp only at hc h1 h2
  subst hc h1 h2
  have hsteps : ∀ s : St, runCmds bB cmds 0 s =
      (Except.ok (),
       { s with now := s.now + stepsDur bB cmds 0,
                events := s.events ++ stepEvents bB cmds 0 s.cwd }) := by
    intro s
    exact runCmds_ok bB cmds 0 s (fun i hi => by simpa using hb i hi)
  simp only [run_workload]
  rw [hproj]
  cases header <;>
  simp [M.bind, M.pure, M.raise, os_path_exists, os_path_isdir,
    os_listdir, clone, statdirRun, build, timeit, withcwd, getTime,
    subprocess_call, os_walk_stat, os_chdir, git_clone_effect, open_append,
    writeheader, writerow, shutil_rmtree, print_results, hsteps,
    buildRow, List.lookup, expectedRow, expectedResults, expectedEvents,
    stepEvents, TEST_RESULTS, CLONE_RESULTS, BUILD_RESULTS, TEST_NAME,
    TEST_PATH, CLONE_TIME, CLONE_STAT, CLONE_BYTES, CLONE_FILES, CLONE_DIRS,
    BUILD_TIME, BUILD_STAT, BUILD_BYTES, BUILD_FILES, BUILD_DIRS, join,
    Nat.add_sub_cancel_left, Nat.add_sub_add_left, Nat.add_assoc,
    List.append_assoc]

theorem runCmds_fail (bs : Nat → ProcB) (cmds : List (List String)) (i0 j : Nat)
    (s : St) (hj : j < cmds.length) (hraise : (bs (i0 + j)).raises = true)
    (hok : ∀ i, i < j → (bs (i0 + i)).raises = false) :
    ∃ s1, runCmds bs cmds i0 s = (Except.error Err.procError, s1)
      ∧ s1.cwd = s.cwd ∧ s1.clonePresent = s.clonePresent
      ∧ s1.fileRows = s.fileRows ∧ s1.stdout = s.stdout
      ∧ hasRmtree s1.events = hasRmtree s.events := by
  induction cmds generalizing i0 j s with
  | nil => simp at hj
  | cons c cs ih =>
    cases j with
    | zero =>
      have hr : (bs i0).raises = true := by simpa using hraise
      refine ⟨{ s with now := s.now + (bs i0).dur }, ?_, rfl, rfl, rfl, rfl, rfl⟩
      simp [runCmds, M.bind, subprocess_call, hr]
    | succ k =>
      have hc : (bs i0).raises = false := by simpa using hok 0 (Nat.succ_pos k)
      have hraise2 : (bs (i0 + 1 + k)).raises = true := by
        have e : i0 + 1 + k = i0 + (k + 1) := by omega
        rw [e]; exact hraise
      have hok2 : ∀ i, i < k → (bs (i0 + 1 + i)).raises = false := by
        intro i hi
        have e : i0 + 1 + i = i0 + (i + 1) := by omega
        rw [e]; exact hok (i + 1) (by omega)
      obtain ⟨s1, h1, hcwd, hcp, hfr, hso, hrm⟩ :=
        ih (i0 + 1) k
          ({ s with
              now := s.now + (bs i0).dur,
              events := s.events ++ [Ev.procCall c s.cwd (bs i0).exitCode] })
          (by simpa using hj) hraise2 hok2
      refine ⟨s1, ?_, ?_, ?_, ?_, ?_, ?_⟩
      · simp only [runCmds, M.bind, subprocess_call, hc, Bool.false_eq_true,
          if_false]
        exact h1
      · simpa using hcwd
      · simpa using hcp
      · simpa using hfr
      · simpa using hso
      · rw [hrm]; simp [hasRmtree_append, hasRmtree]

theorem build_fail (bs : Nat → ProcB) (cmds : List (List String))
    (p : String) (j : Nat) (s : St) (hj : j < cmds.length)
    (hraise : (bs j).raises = true)
    (hok : ∀ i, i < j → (bs i).raises = false) :
    ∃ s1, build bs cmds p s = (Except.error Err.procError, s1)
      ∧ s1.cwd = s.cwd ∧ s1.clonePresent = s.clonePresent
      ∧ s1.fileRows = s.fileRows ∧ s1.stdout = s.stdout
      ∧ hasRmtree s1.events = hasRmtree s.events := by
  obtain ⟨s1, h1, hcwd, hcp, hfr, hso, hrm⟩ :=
    runCmds_fail bs cmds 0 j
      ({ s with cwd := p, events := s.events ++ [Ev.chdirEv p] }) hj
      (by simpa using hraise) (fun i hi => by simpa using hok i hi)
  refine ⟨{ s1 with cwd := s.cwd }, ?_, rfl, ?_, ?_, ?_, ?_⟩
  · simp only [build, timeit, withcwd, M.bind, M.pure, getTime, os_chdir]
    rw [h1]
  · simpa using hcp
  · simpa using hfr
  · simpa using hso
  · rw [show ({ s1 with cwd := s.cwd } : St).events = s1.events from rfl, hrm]
    simp [hasRmtree_append, hasRmtree]

theorem run_workload_measFail (env : Env) (path project output : String)
    (header : Bool) (s0 : St) (pd : ProjectDef)
    (hex : s0.targetExists = true) (hdir : s0.targetIsDir = true)
    (hlist : s0.targetListing = []) (hcp : s0.clonePresent = false)
    (hproj : PROJECTS.lookup project = some pd)
    (hfail : measFails env pd.cmds) :
    ∃ e s1,
      run_workload env path project output header s0 = (Except.error e, s1)
      ∧ hasRmtree s1.events = hasRmtree s0.events
      ∧ s1.clonePresent = !env.cloneB.raises
      ∧ s1.fileRows = s0.fileRows
      ∧ s1.stdout = s0.stdout := by
  obtain ⟨cB, s1B, bB, s2B, oR, wR⟩ := env
  obtain ⟨repo, cmds⟩ := pd
  obtain ⟨now0, cwd0, tex, tdir, tlist, cp, rows0, out0, evs0⟩ := s0
  simp only at hex hdir hlist hcp hproj
  subst hex hdir hlist hcp
  simp only [measFails] at hfail
  obtain ⟨cbr, cbe, cbd⟩ := cB
  obtain ⟨s1r, s1by, s1f, s1d, s1du⟩ := s1B
  obtain ⟨s2r, s2by, s2f, s2d, s2du⟩ := s2B
  simp only at hfail
  rcases hfail with h | ⟨hc, h⟩ | ⟨hc, h1, j, hj, hrj, hok⟩ | ⟨hc, h1, hb, h2⟩
  · subst h
    simp only [run_workload]
    rw [hproj]
    simp [M.bind, M.raise, M.pure, os_path_exists, os_path_isdir, os_listdir,
      clone, timeit, getTime, subprocess_call, git_clone_effect, join]
    exact ⟨_, _, ⟨rfl, rfl⟩, rfl, rfl, rfl, rfl⟩
  · subst hc h
    simp only [run_workload]
    rw [hproj]
    simp [M.bind, M.raise, M.pure, os_path_exists, os_path_isdir, os_listdir,
      clone, statdirRun, timeit, getTime, subprocess_call, git_clone_effect,
      os_walk_stat, join]
    refine ⟨_, _, ⟨rfl, rfl⟩, ?_, rfl, rfl, rfl⟩
    simp [hasRmtree_append, hasRmtree_cons_proc, hasRmtree_nil]
  · subst hc h1
    simp only [run_workload]
    rw [hproj]
    simp only [M.bind, M.raise, M.pure, os_path_exists, os_path_isdir,
      os_listdir, clone, statdirRun, timeit, getTime, subprocess_call,
      git_clone_effect, os_walk_stat, join, Bool.not_true, Bool.not_false,
      Bool.false_or, Bool.or_self, Bool.false_eq_true, if_false,
      List.length_nil, gt_iff_lt, Nat.lt_irrefl, Nat.add_sub_cancel_left]
    obtain ⟨sb, hb1, hbcwd, hbcp, hbfr, hbso, hbrm⟩ :=
      build_fail bB cmds (path ++ "/" ++ project) j _ hj hrj hok
    rw [hb1]
    refine ⟨Err.procError, sb, rfl, ?_, ?_, ?_, ?_⟩
    · rw [hbrm]; simp [hasRmtree_append, hasRmtree]
    · rw [hbcp]
    · rw [hbfr]
    · rw [hbso]
  · subst hc h1 h2
    have hsteps : ∀ s : St, runCmds bB cmds 0 s =
        (Except.ok (),
         { s with now := s.now + stepsDur bB cmds 0,
                  events := s.events ++ stepEvents bB cmds 0 s.cwd }) := by
      intro s
      exact runCmds_ok bB cmds 0 s (fun i hi => by simpa using hb i hi)
    simp only [run_workload]
    rw [hproj]
    simp [M.bind, M.raise, M.pure, os_path_exists, os_path_isdir, os_listdir,
      clone, statdirRun, build, timeit, withcwd, getTime, subprocess_call,
      git_clone_effect, os_walk_stat, os_chdir, join, hsteps]
    refine ⟨_, _, ⟨rfl, rfl⟩, ?_, rfl, rfl, rfl⟩
    simp [hasRmtree_append, hasRmtree_cons_proc, hasRmtree_cons_chdir,
      hasRmtree_cons_stat, hasRmtree_nil, hasRmtree_stepEvents]

theorem run_workload_writeFail (env : Env) (path project output : String)
    (header : Bool) (s0 : St) (pd : ProjectDef)
    (hex : s0.targetExists = true) (hdir : s0.targetIsDir = true)
    (hlist : s0.targetListing = []) (hcp : s0.clonePresent = false)
    (hproj : PROJECTS.lookup project = some pd)
    (hmeas : measOk env pd.cmds)
    (hio : env.openRaises = true ∨ env.writeRaises = true) :
    ∃ s1,
      run_workload env path project output header s0 =
        (Except.error Err.ioError, s1)
      ∧ hasRmtree s1.events = hasRmtree s0.events
      ∧ s1.clonePresent = true
      ∧ s1.stdout = s0.stdout := by
  obtain ⟨cB, s1B, bB, s2B, oR, wR⟩ := env
  obtain ⟨repo, cmds⟩ := pd
  obtain ⟨hc, h1, h2, hb⟩ := hmeas
  obtain ⟨now0, cwd0, tex, tdir, tlist, cp, rows0, out0, evs0⟩ := s0
  simp only at hex hdir hlist hcp hproj hc h1 h2 hb hio
  subst hex hdir hlist hcp
  obtain ⟨cbr, cbe, cbd⟩ := cB
  obtain ⟨s1r, s1by, s1f, s1d, s1du⟩ := s1B
  obtain ⟨s2r, s2by, s2f, s2d, s2du⟩ := s2B
  simp only at hc h1 h2
  subst hc h1 h2
  have hsteps : ∀ s : St, runCmds bB cmds 0 s =
      (Except.ok (),
       { s with now := s.now + stepsDur bB cmds 0,
                events := s.events ++ stepEvents bB cmds 0 s.cwd }) := by
    intro s
    exact runCmds_ok bB cmds 0 s (fun i hi => by simpa using hb i hi)
  rcases hio with h | h
  · subst h
    simp only [run_workload]
    rw [hproj]
    simp [M.bind, M.raise, M.pure, os_path_exists, os_path_isdir, os_listdir,
      clone, statdirRun, build, timeit, withcwd, getTime, subprocess_call,
      git_clone_effect, os_walk_stat, os_chdir, open_append, join, hsteps]
    simp [hasRmtree_append, hasRmtree_cons_proc, hasRmtree_cons_chdir,
      hasRmtree_cons_stat, hasRmtree_nil, hasRmtree_stepEvents]
  · subst h
    cases oR
    · cases header <;>
      · simp only [run_workload]
        rw [hproj]
        simp [M.bind, M.raise, M.pure, os_path_exists, os_path_isdir,
          os_listdir, clone, statdirRun, build, timeit, withcwd, getTime,
          subprocess_call, git_clone_effect, os_walk_stat, os_chdir,
          open_append, writeheader, writerow, join, hsteps]
        simp [hasRmtree_append, hasRmtree_cons_proc, hasRmtree_cons_chdir,
          hasRmtree_cons_stat, hasRmtree_nil, hasRmtree_stepEvents]
    · cases header <;>
      · simp only [run_workload]
        rw [hproj]
        simp [M.bind, M.raise, M.pure, os_path_exists, os_path_isdir,
          os_listdir, clone, statdirRun, build, timeit, withcwd, getTime,
          subprocess_call, git_clone_effect, os_walk_stat, os_chdir,
          open_append, writeheader, writerow, join, hsteps]
        simp [hasRmtree_append, hasRmtree_cons_proc, hasRmtree_cons_chdir,
          hasRmtree_cons_stat, hasRmtree_nil, hasRmtree_stepEvents]

theorem run_workload_invalid (env : Env) (path project output : String)
    (header : Bool) (s0 : St)
    (hv : s0.targetExists = false ∨ s0.targetIsDir = false) :
    run_workload env path project output header s0 =
      (Except.error (Err.invalidTarget path), s0) := by
  rcases hv with h | h <;>
  simp [run_workload, M.bind, M.raise, os_path_exists, os_path_isdir, h]

theorem run_workload_nonempty (env : Env) (path project output : String)
    (header : Bool) (s0 : St)
    (hex : s0.targetExists = true) (hdir : s0.targetIsDir = true)
    (hne : s0.targetListing ≠ []) :
    run_workload env path project output header s0 =
      (Except.error (Err.nonEmptyTarget path), s0) := by
  have hlen : 0 < s0.targetListing.length := List.length_pos.mpr hne
  simp [run_workload, M.bind, M.raise, os_path_exists, os_path_isdir,
    os_listdir, hex, hdir, hlen]

theorem run_workload_unknown (env : Env) (path project output : String)
    (header : Bool) (s0 : St)
    (hex : s0.targetExists = true) (hdir : s0.targetIsDir = true)
    (hlist : s0.targetListing = [])
    (hproj : PROJECTS.lookup project = none) :
    run_workload env path project output header s0 =
      (Except.error (Err.unknownProject project), s0) := by
  simp [run_workload, M.bind, M.raise, os_path_exists, os_path_isdir,
    os_listdir, hex, hdir, hlist, hproj]

theorem stepEvents_mapIdx (bs : Nat → ProcB) (cwd : String) :
    ∀ (cmds : List (List String)) (i0 : Nat),
      stepEvents bs cmds i0 cwd
        = cmds.mapIdx (fun i c => Ev.procCall c cwd (bs (i0 + i)).exitCode) := by
  intro cmds
  induction cmds with
  | nil => intro i0; rfl
  | cons c cs ih =>
    intro i0
    rw [stepEvents, List.mapIdx_cons, ih (i0 + 1)]
    have e : (fun i c => Ev.procCall c cwd (bs (i0 + 1 + i)).exitCode)
        = (fun (i : Nat) (c : List String) =>
            Ev.procCall c cwd (bs (i0 + (i + 1))).exitCode) := by
      funext i c
      have e2 : i0 + 1 + i = i0 + (i + 1) := by omega
      rw [e2]
    simp [e]

theorem stepsDur_mapIdx (bs : Nat → ProcB) :
    ∀ (cmds : List (List String)) (i0 : Nat),
      stepsDur bs cmds i0 = (cmds.mapIdx (fun i _ => (bs (i0 + i)).dur)).sum := by
  intro cmds
  induction cmds with
  | nil => intro i0; rfl
  | cons c cs ih =>
    intro i0
    rw [stepsDur, List.mapIdx_cons, ih (i0 + 1)]
    have e : (fun i (c : List String) => (bs (i0 + 1 + i)).dur)
        = (fun (i : Nat) (c : List String) => (bs (i0 + (i + 1))).dur) := by
      funext i c
      have e2 : i0 + 1 + i = i0 + (i + 1) := by omega
      rw [e2]
    simp [e]

theorem hasRmtree_expectedEvents (env : Env) (repo path project cwd0 : String)
    (cmds : List (List String)) :
    hasRmtree (expectedEvents env repo path project cwd0 cmds) = true := by
  simp [expectedEvents, hasRmtree_append, hasRmtree_cons_proc,
    hasRmtree_cons_chdir, hasRmtree_cons_stat, hasRmtree_stepEvents, hasRmtree]

/-! ### The claims -/

/-- C2: for every directory tree, `statdir` performs the full recursive
traversal and returns total bytes equal to the sum, over every visited
directory, of the sizes of its immediate regular files, a file count equal to
the sum of immediate regular-file counts, and a dir count equal to the sum of
immediate subdirectory counts; applied to an empty directory it returns
0 bytes, 0 files and 0 immediate subdirectories, and (under a monotone wall
clock) the elapsed time is non-negative. -/
theorem statdir_walk_sums (t : FSTree) (t0 t1 : Int) (h : t0 ≤ t1) :
    (statdir t0 t1 t).1 = (walkBytesSum t, walkFilesSum t, walkDirsSum t)
    ∧ (statdir t0 t1 emptyDir).1 = (0, 0, 0)
    ∧ 0 ≤ (statdir t0 t1 t).2 := by
  refine ⟨statdirCore_eq t, rfl, ?_⟩
  show (0 : Int) ≤ t1 - t0
  omega

theorem statdir_walk_sums_witness :
    (0 : Int) ≤ 3 ∧
    ((statdir 0 3 sampleTree).1
        = (walkBytesSum sampleTree, walkFilesSum sampleTree, walkDirsSum sampleTree)
      ∧ (statdir 0 3 emptyDir).1 = (0, 0, 0)
      ∧ 0 ≤ (statdir 0 3 sampleTree).2) :=
  ⟨by decide, statdir_walk_sums sampleTree 0 3 (by decide)⟩

/-- C9: the dir-count aggregate returned by `statdir` (the sum, over all
visited directories, of their immediate-subdirectory counts) equals the
number of distinct directories strictly below the root; the root itself is
never counted. -/
theorem statdir_dir_count_distinct (t : FSTree) (t0 t1 : Int) :
    (statdir t0 t1 t).1.2.2 = countBelow t := by
  show (statdirCore t).2.2 = countBelow t
  rw [statdirCore_eq]
  exact walkDirsSum_eq t

/-- C8: the working directory is saved before the build phase and restored to
its prior value afterwards in every case — `withcwd` restores it whether the
wrapped computation returns or raises (the computation `f` here is
arbitrary), and in particular the whole `build` phase leaves the working
directory it found. -/
theorem build_restores_cwd {α : Type} (f : M α) (bs : Nat → ProcB)
    (cmds : List (List String)) (p : String) (s t : St) :
    ((withcwd f) s).2.cwd = s.cwd ∧ (build bs cmds p t).2.cwd = t.cwd := by
  refine ⟨withcwd_cwd f s, ?_⟩
  simp only [build, timeit, M.bind, M.pure, getTime]
  rcases hwg : withcwd (M.bind (os_chdir p) fun _ => runCmds bs cmds 0) t with ⟨r, t1⟩
  have hcwd : t1.cwd = t.cwd := by
    have h2 := withcwd_cwd (M.bind (os_chdir p) fun _ => runCmds bs cmds 0) t
    rw [hwg] at h2
    exact h2
  cases r <;> simp [hcwd]

/-- C4: run_workload fails with `InvalidTargetError` when the target path
does not exist or is not a directory, and with `NonEmptyTargetError` when the
target is an existing non-empty directory; in both cases the whole state —
in particular the results store — is left untouched. -/
theorem run_workload_target_validation (env : Env)
    (path project output : String) (header : Bool) (s1 s2 : St)
    (hv : s1.targetExists = false ∨ s1.targetIsDir = false)
    (hex2 : s2.targetExists = true) (hdir2 : s2.targetIsDir = true)
    (hne : s2.targetListing ≠ []) :
    (run_workload env path project output header s1
        = (Except.error (Err.invalidTarget path), s1)
      ∧ (run_workload env path project output header s1).2.fileRows = s1.fileRows)
    ∧ (run_workload env path project output header s2
        = (Except.error (Err.nonEmptyTarget path), s2)
      ∧ (run_workload env path project output header s2).2.fileRows = s2.fileRows) := by
  have a := run_workload_invalid env path project output header s1 hv
  have b := run_workload_nonempty env path project output header s2 hex2 hdir2 hne
  exact ⟨⟨a, by rw [a]⟩, ⟨b, by rw [b]⟩⟩

theorem run_workload_target_validation_witness :
    (({ initSt with targetExists := false } : St).targetExists = false
      ∨ ({ initSt with targetExists := false } : St).targetIsDir = false)
    ∧ ({ initSt with targetListing := ["junk"] } : St).targetExists = true
    ∧ ({ initSt with targetListing := ["junk"] } : St).targetListing ≠ []
    ∧ ((run_workload sampleEnv "/data" "redis" "results.csv" true
          { initSt with targetExists := false }
        = (Except.error (Err.invalidTarget "/data"),
           { initSt with targetExists := false })
      ∧ (run_workload sampleEnv "/data" "redis" "results.csv" true
          { initSt with targetExists := false }).2.fileRows
          = ({ initSt with targetExists := false } : St).fileRows)
    ∧ (run_workload sampleEnv "/data" "redis" "results.csv" true
          { initSt with targetListing := ["junk"] }
        = (Except.error (Err.nonEmptyTarget "/data"),
           { initSt with targetListing := ["junk"] })
      ∧ (run_workload sampleEnv "/data" "redis" "results.csv" true
          { initSt with targetListing := ["junk"] }).2.fileRows
          = ({ initSt with targetListing := ["junk"] } : St).fileRows)) :=
  ⟨Or.inl rfl, rfl, by decide,
   run_workload_target_validation sampleEnv "/data" "redis" "results.csv" true
     { initSt with targetExists := false } { initSt with targetListing := ["junk"] }
     (Or.inl rfl) rfl rfl (by decide)⟩

/-- C5: for every project name that is not a key of the registry,
run_workload on a valid empty target fails with `UnknownProjectError` and
leaves the state exactly as it was — no clone, build or stat has been
attempted (the event trace is unchanged) and the results store is not
mutated. -/
theorem run_workload_unknown_project (env : Env)
    (path project output : String) (header : Bool) (s0 : St)
    (hex : s0.targetExists = true) (hdir : s0.targetIsDir = true)
    (hlist : s0.targetListing = [])
    (hproj : PROJECTS.lookup project = none) :
    run_workload env path project output header s0
        = (Except.error (Err.unknownProject project), s0)
      ∧ (run_workload env path project output header s0).2.events = s0.events
      ∧ (run_workload env path project output header s0).2.fileRows = s0.fileRows := by
  have a := run_workload_unknown env path project output header s0 hex hdir hlist hproj
  exact ⟨a, by rw [a], by rw [a]⟩

theorem run_workload_unknown_project_witness :
    initSt.targetExists = true ∧ initSt.targetIsDir = true
    ∧ initSt.targetListing = []
    ∧ PROJECTS.lookup "golang" = none
    ∧ (run_workload sampleEnv "/data" "golang" "results.csv" false initSt
          = (Except.error (Err.unknownProject "golang"), initSt)
      ∧ (run_workload sampleEnv "/data" "golang" "results.csv" false initSt).2.events
          = initSt.events
      ∧ (run_workload sampleEnv "/data" "golang" "results.csv" false initSt).2.fileRows
          = initSt.fileRows) :=
  ⟨rfl, rfl, rfl, rfl,
   run_workload_unknown_project sampleEnv "/data" "golang" "results.csv" false
     initSt rfl rfl rfl rfl⟩

/-- C1: every successful invocation of run_workload appends exactly one data
row to the results store, with its twelve fields in the fixed column order
test name, test path, clone time, build time, clone stat, clone bytes,
clone files, clone dirs, build stat, build bytes, build files, build dirs
(see `expectedRow`); when the header flag is set and the output file is fresh
and empty, the resulting file is exactly the header row of those twelve
column names followed by exactly one data row. -/
theorem run_workload_appends_single_row (env : Env)
    (path project output : String) (header : Bool) (s0 : St) (pd : ProjectDef)
    (hex : s0.targetExists = true) (hdir : s0.targetIsDir = true)
    (hlist : s0.targetListing = [])
    (hproj : PROJECTS.lookup project = some pd)
    (hmeas : measOk env pd.cmds)
    (hopen : env.openRaises = false) (hwrite : env.writeRaises = false) :
    ∃ s1, run_workload env path project output header s0 = (Except.ok (), s1)
      ∧ s1.fileRows = s0.fileRows
          ++ (if header then
                [(TEST_RESULTS ++ CLONE_RESULTS ++ BUILD_RESULTS).map Val.str]
              else [])
          ++ [expectedRow env path project pd.cmds]
      ∧ TEST_RESULTS ++ CLONE_RESULTS ++ BUILD_RESULTS
          = ["test name", "test path", "clone time", "build time",
             "clone stat", "clone bytes", "clone files", "clone dirs",
             "build stat", "build bytes", "build files", "build dirs"]
      ∧ (expectedRow env path project pd.cmds).length = 12 :=
  ⟨_, run_workload_ok env path project output header s0 pd hex hdir hlist hproj
        hmeas hopen hwrite, rfl, rfl, rfl⟩

theorem run_workload_appends_single_row_witness :
    initSt.targetExists = true ∧ initSt.targetIsDir = true
    ∧ initSt.targetListing = []
    ∧ PROJECTS.lookup "redis" = some redisDef
    ∧ measOk sampleEnv redisDef.cmds
    ∧ sampleEnv.openRaises = false ∧ sampleEnv.writeRaises = false
    ∧ (∃ s1, run_workload sampleEnv "/data" "redis" "results.csv" true initSt
          = (Except.ok (), s1)
      ∧ s1.fileRows = initSt.fileRows
          ++ (if true then
                [(TEST_RESULTS ++ CLONE_RESULTS ++ BUILD_RESULTS).map Val.str]
              else [])
          ++ [expectedRow sampleEnv "/data" "redis" redisDef.cmds]
      ∧ TEST_RESULTS ++ CLONE_RESULTS ++ BUILD_RESULTS
          = ["test name", "test path", "clone time", "build time",
             "clone stat", "clone bytes", "clone files", "clone dirs",
             "build stat", "build bytes", "build files", "build dirs"]
      ∧ (expectedRow sampleEnv "/data" "redis" redisDef.cmds).length = 12) :=
  ⟨rfl, rfl, rfl, rfl, ⟨rfl, rfl, rfl, fun _ _ => rfl⟩, rfl, rfl,
   run_workload_appends_single_row sampleEnv "/data" "redis" "results.csv" true
     initSt redisDef rfl rfl rfl rfl ⟨rfl, rfl, rfl, fun _ _ => rfl⟩ rfl rfl⟩

/-- C7: a child process exiting with a non-zero status — the clone command or
any build step — is not treated as a failure: the environment here constrains
only the raise flags, leaving every exit status arbitrary (in particular
non-zero), and the run still completes every stage, appends the complete
result row to the store, removes the cloned tree and prints the record. -/
theorem run_workload_ignores_exit_codes (env : Env)
    (path project output : String) (header : Bool) (s0 : St) (pd : ProjectDef)
    (hex : s0.targetExists = true) (hdir : s0.targetIsDir = true)
    (hlist : s0.targetListing = [])
    (hproj : PROJECTS.lookup project = some pd)
    (hmeas : measOk env pd.cmds)
    (hopen : env.openRaises = false) (hwrite : env.writeRaises = false) :
    ∃ s1, run_workload env path project output header s0 = (Except.ok (), s1)
      ∧ s1.fileRows = s0.fileRows
          ++ (if header then
                [(TEST_RESULTS ++ CLONE_RESULTS ++ BUILD_RESULTS).map Val.str]
              else [])
          ++ [expectedRow env path project pd.cmds]
      ∧ s1.stdout = s0.stdout ++ [expectedResults env path project pd.cmds]
      ∧ hasRmtree s1.events = true :=
  ⟨_, run_workload_ok env path project output header s0 pd hex hdir hlist hproj
        hmeas hopen hwrite, rfl, rfl, by
    show hasRmtree (s0.events ++ expectedEvents env pd.repo path project s0.cwd pd.cmds) = true
    rw [hasRmtree_append, hasRmtree_expectedEvents, Bool.or_true]⟩

theorem run_workload_ignores_exit_codes_witness :
    initSt.targetExists = true ∧ initSt.targetIsDir = true
    ∧ initSt.targetListing = []
    ∧ PROJECTS.lookup "redis" = some redisDef
    ∧ measOk sampleEnv redisDef.cmds
    ∧ sampleEnv.openRaises = false ∧ sampleEnv.writeRaises = false
    ∧ sampleEnv.cloneB.exitCode = 1 ∧ (sampleEnv.buildB 0).exitCode = 1
    ∧ (∃ s1, run_workload sampleEnv "/data" "redis" "results.csv" false initSt
          = (Except.ok (), s1)
      ∧ s1.fileRows = initSt.fileRows
          ++ (if false then
                [(TEST_RESULTS ++ CLONE_RESULTS ++ BUILD_RESULTS).map Val.str]
              else [])
          ++ [expectedRow sampleEnv "/data" "redis" redisDef.cmds]
      ∧ s1.stdout = initSt.stdout
          ++ [expectedResults sampleEnv "/data" "redis" redisDef.cmds]
      ∧ hasRmtree s1.events = true) :=
  ⟨rfl, rfl, rfl, rfl, ⟨rfl, rfl, rfl, fun _ _ => rfl⟩, rfl, rfl, rfl, rfl,
   run_workload_ignores_exit_codes sampleEnv "/data" "redis" "results.csv" false
     initSt redisDef rfl rfl rfl rfl ⟨rfl, rfl, rfl, fun _ _ => rfl⟩ rfl rfl⟩

/-- C6: for every registered project, a successful run issues one process
invocation per build step, in the registry's listed order, each from the
cloned project directory `join path project`, and records as the build time
the single wall-clock duration covering the entire sequence of steps — the
sum of the individual step durations — not a per-step duration. -/
theorem run_workload_build_steps_in_order (env : Env)
    (path project output : String) (header : Bool) (s0 : St) (pd : ProjectDef)
    (hex : s0.targetExists = true) (hdir : s0.targetIsDir = true)
    (hlist : s0.targetListing = [])
    (hproj : PROJECTS.lookup project = some pd)
    (hmeas : measOk env pd.cmds)
    (hopen : env.openRaises = false) (hwrite : env.writeRaises = false) :
    ∃ s1, run_workload env path project output header s0 = (Except.ok (), s1)
      ∧ s1.events = s0.events
          ++ expectedEvents env pd.repo path project s0.cwd pd.cmds
      ∧ stepEvents env.buildB pd.cmds 0 (join path project)
          = pd.cmds.mapIdx
              (fun i c => Ev.procCall c (join path project) (env.buildB i).exitCode)
      ∧ List.lookup BUILD_TIME (expectedResults env path project pd.cmds)
          = some (Val.num (stepsDur env.buildB pd.cmds 0))
      ∧ stepsDur env.buildB pd.cmds 0
          = (pd.cmds.mapIdx (fun i _ => (env.buildB i).dur)).sum :=
  ⟨_, run_workload_ok env path project output header s0 pd hex hdir hlist hproj
        hmeas hopen hwrite, rfl,
   by simpa using stepEvents_mapIdx env.buildB (join path project) pd.cmds 0,
   rfl,
   by simpa using stepsDur_mapIdx env.buildB pd.cmds 0⟩

theorem run_workload_build_steps_in_order_witness :
    initSt.targetExists = true ∧ initSt.targetIsDir = true
    ∧ initSt.targetListing = []
    ∧ PROJECTS.lookup "redis" = some redisDef
    ∧ measOk sampleEnv redisDef.cmds
    ∧ sampleEnv.openRaises = false ∧ sampleEnv.writeRaises = false
    ∧ (∃ s1, run_workload sampleEnv "/data" "redis" "results.csv" false initSt
          = (Except.ok (), s1)
      ∧ s1.events = initSt.events
          ++ expectedEvents sampleEnv redisDef.repo "/data" "redis" initSt.cwd
              redisDef.cmds
      ∧ stepEvents sampleEnv.buildB redisDef.cmds 0 (join "/data" "redis")
          = redisDef.cmds.mapIdx
              (fun i c =>
                Ev.procCall c (join "/data" "redis") (sampleEnv.buildB i).exitCode)
      ∧ List.lookup BUILD_TIME (expectedResults sampleEnv "/data" "redis" redisDef.cmds)
          = some (Val.num (stepsDur sampleEnv.buildB redisDef.cmds 0))
      ∧ stepsDur sampleEnv.buildB redisDef.cmds 0
          = (redisDef.cmds.mapIdx (fun i _ => (sampleEnv.buildB i).dur)).sum) :=
  ⟨rfl, rfl, rfl, rfl, ⟨rfl, rfl, rfl, fun _ _ => rfl⟩, rfl, rfl,
   run_workload_build_steps_in_order sampleEnv "/data" "redis" "results.csv"
     false initSt redisDef rfl rfl rfl rfl ⟨rfl, rfl, rfl, fun _ _ => rfl⟩ rfl rfl⟩

/-- C3: cleanup of the cloned tree is attempted only after all measurement
steps succeed: a fully successful run has removed `target/project` (the trace
contains the removal, the tree is gone) and the target directory is empty
again with the validation precondition re-satisfied; whereas if the clone, a
build step, or either stat raises, no cleanup is attempted — the trace gains
no tree removal — and the cloned tree is left behind exactly when the clone
call itself had completed (no automatic rollback). -/
theorem run_workload_cleanup_only_on_success (envOk envBad : Env)
    (path project output : String) (header : Bool) (s0 sB : St)
    (pd : ProjectDef)
    (hex : s0.targetExists = true) (hdir : s0.targetIsDir = true)
    (hlist : s0.targetListing = [])
    (hexB : sB.targetExists = true) (hdirB : sB.targetIsDir = true)
    (hlistB : sB.targetListing = []) (hcpB : sB.clonePresent = false)
    (hproj : PROJECTS.lookup project = some pd)
    (hOk : measOk envOk pd.cmds)
    (hopen : envOk.openRaises = false) (hwrite : envOk.writeRaises = false)
    (hBad : measFails envBad pd.cmds) :
    (∃ s1, run_workload envOk path project output header s0 = (Except.ok (), s1)
      ∧ s1.clonePresent = false
      ∧ s1.targetListing = []
      ∧ s1.targetExists = true ∧ s1.targetIsDir = true
      ∧ hasRmtree s1.events = true)
    ∧ (∃ e s1,
        run_workload envBad path project output header sB = (Except.error e, s1)
      ∧ hasRmtree s1.events = hasRmtree sB.events
      ∧ s1.clonePresent = !envBad.cloneB.raises) := by
  constructor
  · refine ⟨_, run_workload_ok envOk path project output header s0 pd hex hdir
      hlist hproj hOk hopen hwrite, rfl, hlist, hex, hdir, ?_⟩
    show hasRmtree
        (s0.events ++ expectedEvents envOk pd.repo path project s0.cwd pd.cmds)
        = true
    rw [hasRmtree_append, hasRmtree_expectedEvents, Bool.or_true]
  · obtain ⟨e, s1, h1, h2, h3, _, _⟩ :=
      run_workload_measFail envBad path project output header sB pd hexB hdirB
        hlistB hcpB hproj hBad
    exact ⟨e, s1, h1, h2, h3⟩

theorem run_workload_cleanup_only_on_success_witness :
    initSt.targetExists = true ∧ initSt.targetIsDir = true
    ∧ initSt.targetListing = [] ∧ initSt.clonePresent = false
    ∧ PROJECTS.lookup "redis" = some redisDef
    ∧ measOk sampleEnv redisDef.cmds
    ∧ sampleEnv.openRaises = false ∧ sampleEnv.writeRaises = false
    ∧ measFails sampleEnvStatFail redisDef.cmds
    ∧ ((∃ s1, run_workload sampleEnv "/data" "redis" "results.csv" false initSt
          = (Except.ok (), s1)
      ∧ s1.clonePresent = false
      ∧ s1.targetListing = []
      ∧ s1.targetExists = true ∧ s1.targetIsDir = true
      ∧ hasRmtree s1.events = true)
    ∧ (∃ e s1,
        run_workload sampleEnvStatFail "/data" "redis" "results.csv" false initSt
          = (Except.error e, s1)
      ∧ hasRmtree s1.events = hasRmtree initSt.events
      ∧ s1.clonePresent = !sampleEnvStatFail.cloneB.raises)) :=
  ⟨rfl, rfl, rfl, rfl, rfl, ⟨rfl, rfl, rfl, fun _ _ => rfl⟩, rfl, rfl,
   Or.inr (Or.inr (Or.inr ⟨rfl, rfl, fun _ _ => rfl, rfl⟩)),
   run_workload_cleanup_only_on_success sampleEnv sampleEnvStatFail "/data"
     "redis" "results.csv" false initSt initSt redisDef rfl rfl rfl rfl rfl rfl
     rfl rfl ⟨rfl, rfl, rfl, fun _ _ => rfl⟩ rfl rfl
     (Or.inr (Or.inr (Or.inr ⟨rfl, rfl, fun _ _ => rfl, rfl⟩)))⟩

/-- C10: if every measurement step (clone, both stats, all build steps)
succeeds but opening or appending to the output file raises, run_workload
propagates the error, does not delete the cloned tree `target/project` (the
trace gains no tree removal and the tree is still present), and does not
print the summary: cleanup and the stdout dump depend on successful
persistence, not only on successful measurement. -/
theorem run_workload_write_failure (env : Env)
    (path project output : String) (header : Bool) (s0 : St) (pd : ProjectDef)
    (hex : s0.targetExists = true) (hdir : s0.targetIsDir = true)
    (hlist : s0.targetListing = []) (hcp : s0.clonePresent = false)
    (hproj : PROJECTS.lookup project = some pd)
    (hmeas : measOk env pd.cmds)
    (hio : env.openRaises = true ∨ env.writeRaises = true) :
    ∃ s1, run_workload env path project output header s0
        = (Except.error Err.ioError, s1)
      ∧ hasRmtree s1.events = hasRmtree s0.events
      ∧ s1.clonePresent = true
      ∧ s1.stdout = s0.stdout :=
  run_workload_writeFail env path project output header s0 pd hex hdir hlist
    hcp hproj hmeas hio

theorem run_workload_write_failure_witness :
    initSt.targetExists = true ∧ initSt.targetIsDir = true
    ∧ initSt.targetListing = [] ∧ initSt.clonePresent = false
    ∧ PROJECTS.lookup "redis" = some redisDef
    ∧ measOk sampleEnvOpenFail redisDef.cmds
    ∧ sampleEnvOpenFail.openRaises = true
    ∧ (∃ s1, run_workload sampleEnvOpenFail "/data" "redis" "results.csv" true
          initSt = (Except.error Err.ioError, s1)
      ∧ hasRmtree s1.events = hasRmtree initSt.events
      ∧ s1.clonePresent = true
      ∧ s1.stdout = initSt.stdout) :=
  ⟨rfl, rfl, rfl, rfl, rfl, ⟨rfl, rfl, rfl, fun _ _ => rfl⟩, rfl,
   run_workload_write_failure sampleEnvOpenFail "/data" "redis" "results.csv"
     true initSt redisDef rfl rfl rfl rfl rfl ⟨rfl, rfl, rfl, fun _ _ => rfl⟩
     (Or.inl rfl)⟩

end Workload
